import Mathlib

/-!
Verification of the phc2sys clock-synchronization daemon (src/phc2sys.c).

The definitions below are a shallow embedding of the C source.  Machine
integers are modelled as Nat (for the C uint64_t values) and Int (for the
C int64_t and int values), with the uint64 wraparound made explicit where
the source mixes signed and unsigned arithmetic.  External collaborators
that live outside src/ (the pmc transport, clock_gettime, the servo, the
clockadj primitives and the leap helpers from util.c) enter either as
oracle parameters or as event lists; calls into them are recorded as
explicit effects so that theorems can speak about which kernel calls an
iteration performs.
-/

/-! ### Constants from phc2sys.c and the headers it includes -/

def NS_PER_SEC : Int := 1000000000

def max_ppb : Int := 512000

def PHC_PPS_OFFSET_LIMIT : Int := 10000000

/-- `PMC_UPDATE_INTERVAL` is `60 * NS_PER_SEC`; it is compared against a
uint64 difference, hence the Nat type here. -/
def PMC_UPDATE_INTERVAL : Nat := 60 * 1000000000

/-- Management id of the port data set (tlv.h). -/
def PORT_DATA_SET : Nat := 0x2004

/-- Management id of the time-properties data set (tlv.h). -/
def TIME_PROPERTIES_DATA_SET : Nat := 0x2003

/-- Port state MASTER (fsm.h). -/
def PS_MASTER : Nat := 6

/-- Port state SLAVE (fsm.h). -/
def PS_SLAVE : Nat := 9

/-- timePropertiesDS flag bit LEAP_61 (ds.h). -/
def LEAP_61 : Nat := 1

/-- timePropertiesDS flag bit LEAP_59 (ds.h). -/
def LEAP_59 : Nat := 2

/-- Reduction of a signed value into a uint64_t, as C does when a signed
expression is assigned to or combined with an unsigned 64-bit variable. -/
def u64ofInt (x : Int) : Nat := (x % 18446744073709551616).toNat

/-- Reinterpretation of a uint64_t bit pattern as an int64_t, as C does
when a uint64 difference is stored into an int64 variable. -/
def i64ofU64 (x : Nat) : Int :=
  if x < 9223372036854775808 then (x : Int) else (x : Int) - 18446744073709551616

/-! ### Clock handles and the clock structure -/

/-- A clockid_t as phc2sys uses it: CLOCK_REALTIME, a dynamic clock fd
obtained from a /dev/ptp device, or CLOCK_INVALID. -/
inductive ClockId where
  | realtime
  | phc (fd : Nat)
  | invalid
deriving DecidableEq, Repr

/-- enum servo_state (servo.h). -/
inductive ServoState where
  | unlocked
  | jump
  | locked
deriving DecidableEq, Repr

/-- struct clock from phc2sys.c.  The three stats pointers are modelled by
the single flag `offset_stats` (they are all null or all non-null), the
servo pointer is passed separately as an oracle, and the pmc pointer is
the flag `pmc`. -/
structure Clock where
  clkid : ClockId
  servo_state : ServoState
  source_label : String
  offset_stats : Bool
  stats_max_count : Nat
  sync_offset : Int
  sync_offset_direction : Int
  leap : Int
  leap_set : Int
  kernel_leap : Bool
  pmc : Bool
  pmc_ds_idx : Nat
  pmc_ds_requested : Bool
  pmc_last_update : Nat
deriving DecidableEq, Repr

/-! ### read_phc: the PHC cross sampler -/

/-- struct timespec as delivered by clock_gettime. -/
structure Timespec where
  tv_sec : Int
  tv_nsec : Int
deriving DecidableEq, Repr

/-- One trial of the read_phc loop: the three clock_gettime results
(tdst1, tsrc, tdst2), read in that order. -/
abbrev Trial := Timespec × Timespec × Timespec

/-- Nanosecond value of a timespec. -/
def tsNs (t : Timespec) : Int := t.tv_sec * NS_PER_SEC + t.tv_nsec

/-- interval of a trial, as the claim states it. -/
def trialInterval (t : Trial) : Int := tsNs t.2.2 - tsNs t.1

/-- offset of a trial, as the claim states it: t1 - tm + (t2 - t1)/2 with
C truncating division. -/
def trialOffset (t : Trial) : Int :=
  tsNs t.1 - tsNs t.2.1 + (trialInterval t).tdiv 2

/-- timestamp of a trial, as the claim states it: t2. -/
def trialTs (t : Trial) : Int := tsNs t.2.2

/-- The loop body of read_phc.  State is (best_interval, *offset, *ts);
best_interval starts at INT64_MAX and *delay receives it at the end. -/
def read_phc_go : List Trial → Int → Int → Int → Int × Int × Int
  | [], best, off, ts => (off, ts, best)
  | (tdst1, tsrc, tdst2) :: rest, best, off, ts =>
    let interval := (tdst2.tv_sec - tdst1.tv_sec) * NS_PER_SEC +
      tdst2.tv_nsec - tdst1.tv_nsec
    if best > interval then
      read_phc_go rest interval
        ((tdst1.tv_sec - tsrc.tv_sec) * NS_PER_SEC +
          tdst1.tv_nsec - tsrc.tv_nsec + interval.tdiv 2)
        (tdst2.tv_sec * NS_PER_SEC + tdst2.tv_nsec)
    else
      read_phc_go rest best off ts

/-- read_phc on a run in which every clock_gettime succeeds, returning
(*offset, *ts, *delay).  The C out-parameters are uninitialized before the
loop; 0 stands for their arbitrary initial contents. -/
def read_phc (trials : List Trial) : Int × Int × Int :=
  read_phc_go trials 9223372036854775807 0 0

/-! ### read_pps: the pure PPS sampler -/

/-- The offset computation of read_pps from the raw assertion timestamp
(*ts, in nanoseconds).  The fetch failure path returns before this point
and is modelled in the loop below. -/
def read_pps (raw : Nat) : Int :=
  let offset : Int := (raw % 1000000000 : Nat)
  if offset > NS_PER_SEC / 2 then offset - NS_PER_SEC else offset

/-! ### do_pps_loop / do_phc_loop iteration bodies -/

/-- The hybrid PPS+PHC second-alignment step of do_pps_loop: given the PPS
timestamp and the PHC cross-sample, either skip (none) or produce the
recomputed pps_offset (some).  phc_ts -= phc_offset is uint64 arithmetic
and pps_ts - phc_ts is a uint64 difference stored into an int64. -/
def pps_phc_adjust (pps_ts : Nat) (phc_offset : Int) (phc_ts : Nat) : Option Int :=
  let phc_ts1 : Nat := u64ofInt ((phc_ts : Int) - phc_offset)
  if phc_ts1 % 1000000000 > 10000000 then none
  else
    let phc_ts2 : Nat := phc_ts1 / 1000000000 * 1000000000
    some (i64ofU64 (u64ofInt ((pps_ts : Int) - (phc_ts2 : Int))))

/-- Outcome of one iteration of a sampling loop. -/
inductive IterOut where
  | skipped
  | fatal
  | fed (offset : Int) (ts : Nat) (delay : Int)
deriving DecidableEq, Repr

/-- One iteration of do_pps_loop.  `src_valid` is src != CLOCK_INVALID;
`pps` is the raw PPS assertion timestamp when the PPS_FETCH ioctl
succeeds; `phc` is (offset, ts, delay) when read_phc succeeds.  `fed`
carries the arguments passed to update_clock. -/
def pps_loop_iter (src_valid : Bool) (pps : Option Nat)
    (phc : Option (Int × Nat × Int)) : IterOut :=
  match pps with
  | none => IterOut.skipped
  | some raw =>
    let pps_offset := read_pps raw
    let pps_ts := raw
    if src_valid then
      match phc with
      | none => IterOut.fatal
      | some (phc_offset, phc_ts, _phc_delay) =>
        match pps_phc_adjust pps_ts phc_offset phc_ts with
        | none => IterOut.skipped
        | some off => IterOut.fed off pps_ts (-1)
    else IterOut.fed pps_offset pps_ts (-1)

/-- One iteration of do_phc_loop (after the usleep): `phc` is
(offset, ts, delay) when read_phc succeeds. -/
def phc_loop_iter (phc : Option (Int × Nat × Int)) : IterOut :=
  match phc with
  | none => IterOut.skipped
  | some (off, ts, delay) => IterOut.fed off ts delay

/-! ### run_pmc: the management client state machine -/

/-- The decoded content of a pmc_recv message, as far as run_pmc consumes
it: the is_msg_mgt validation outcome, the management id, and the fields
extracted from the two data sets. -/
structure Msg where
  is_mgmt : Bool
  mgt_id : Nat
  portState : Nat
  currentUtcOffset : Int
  flags : Nat
deriving DecidableEq, Repr

/-- One poll outcome on the management transport.  `ready` carries the
POLLOUT and POLLIN|POLLPRI revents and, when POLLIN is set, the result of
pmc_recv (none models a null message). -/
inductive PollEvent where
  | pollErr
  | pollTimeout
  | ready (pollout : Bool) (pollin : Bool) (msg : Option Msg)
deriving DecidableEq, Repr

/-- ds_ids from run_pmc: index 0 is PORT_DATA_SET, index 1 is
TIME_PROPERTIES_DATA_SET. -/
def ds_ids : Nat → Nat
  | 0 => PORT_DATA_SET
  | _ => TIME_PROPERTIES_DATA_SET

/-- The while loop of run_pmc over the clock fields it reads and writes:
pmc_ds_idx, pmc_ds_requested, sync_offset and leap (everything else in
struct clock is untouched by run_pmc).  The poll outcomes are supplied as
a list; an exhausted list behaves as a poll timeout (with timeout 0 the
kernel returns immediately when nothing is pending).  Returns the C
return value (-1 poll failure, 0 not ready yet, 1 update complete) and
the new (pmc_ds_idx, pmc_ds_requested, sync_offset, leap). -/
def run_pmc_go (wait_sync get_utc_offset : Bool) (idx : Nat) (requested : Bool)
    (sync_offset leap : Int) (events : List PollEvent) :
    Int × Nat × Bool × Int × Int :=
  if _h2 : idx ≥ 2 then (1, 0, requested, sync_offset, leap)
  else if (idx = 0 ∧ ¬wait_sync) ∨ (idx = 1 ∧ ¬get_utc_offset) then
    run_pmc_go wait_sync get_utc_offset (idx + 1) requested sync_offset leap events
  else
    match events with
    | [] => (0, idx, false, sync_offset, leap)
    | e :: rest =>
      match e with
      | PollEvent.pollErr => (-1, idx, requested, sync_offset, leap)
      | PollEvent.pollTimeout => (0, idx, false, sync_offset, leap)
      | PollEvent.ready pollout pollin msg =>
        /- the send-request branch fires only when POLLIN is clear, so
        pmc_ds_requested is unchanged on the receive path -/
        if ¬pollin then
          run_pmc_go wait_sync get_utc_offset idx
            (if pollout ∧ ¬pollin then true else requested) sync_offset leap rest
        else
          match msg with
          | none => run_pmc_go wait_sync get_utc_offset idx requested sync_offset leap rest
          | some m =>
            if ¬m.is_mgmt ∨ m.mgt_id ≠ ds_ids idx then
              run_pmc_go wait_sync get_utc_offset idx requested sync_offset leap rest
            else
              /- the ds_done switch: PORT_DATA_SET is done only in state
              MASTER or SLAVE; TIME_PROPERTIES_DATA_SET stores the UTC
              offset and leap bits and is always done -/
              if m.mgt_id = PORT_DATA_SET then
                if m.portState = PS_MASTER ∨ m.portState = PS_SLAVE then
                  run_pmc_go wait_sync get_utc_offset (idx + 1) false sync_offset leap rest
                else
                  run_pmc_go wait_sync get_utc_offset idx requested sync_offset leap rest
              else
                run_pmc_go wait_sync get_utc_offset (idx + 1) false m.currentUtcOffset
                  (if m.flags &&& LEAP_61 ≠ 0 then 1
                   else if m.flags &&& LEAP_59 ≠ 0 then -1 else 0) rest
termination_by (events.length, 2 - idx)

/-- run_pmc: the loop above applied to and written back into the clock. -/
def run_pmc (wait_sync get_utc_offset : Bool) (c : Clock)
    (events : List PollEvent) : Int × Clock :=
  let r := run_pmc_go wait_sync get_utc_offset c.pmc_ds_idx c.pmc_ds_requested
    c.sync_offset c.leap events
  (r.1, { c with
      pmc_ds_idx := r.2.1
      pmc_ds_requested := r.2.2.1
      sync_offset := r.2.2.2.1
      leap := r.2.2.2.2 })

/-! ### update_sync_offset: the leap coordinator -/

/-- External calls made during one control-loop iteration, in order. -/
inductive Effect where
  | pmcRound
  | readRealtime (ok : Bool)
  | logSuspend
  | setLeap (v : Int)
  | servoSampled (offset : Int) (ts : Nat)
  | stepClock (v : Int)
  | setFreq (v : Int)
  | statsUpdated (offset : Int) (freq : Int) (delay : Int)
  | logSample
deriving DecidableEq, Repr

/-- Step and frequency adjustments of the slave clock. -/
def Effect.isAdjust : Effect → Bool
  | Effect.stepClock _ => true
  | Effect.setFreq _ => true
  | _ => false

/-- The effects that consume a sample: servo sampling, clock step or
frequency adjustment, and statistics accumulation. -/
def Effect.isConsume : Effect → Bool
  | Effect.servoSampled _ _ => true
  | Effect.stepClock _ => true
  | Effect.setFreq _ => true
  | Effect.statsUpdated _ _ _ => true
  | _ => false

/-- The environment of one update_sync_offset call: the poll outcomes the
management round would see, the CLOCK_REALTIME reading (none models a
clock_gettime failure), and the util.c leap helpers as oracles. -/
structure SyncEnv where
  pmcEvents : List PollEvent
  realtime : Option Nat
  is_utc_ambiguous : Nat → Bool
  leap_second_status : Nat → Int → Int → Int → Int × Int × Int

/-- First half of update_sync_offset: the periodic management refresh.
The run_pmc call is written once per projection; the source evaluates it
once, which is equivalent. -/
def uso_pmc_stage (env : SyncEnv) (c : Clock) (ts : Nat) : Clock × List Effect :=
  if c.pmc ∧ ¬(ts > c.pmc_last_update ∧ ts - c.pmc_last_update < PMC_UPDATE_INTERVAL) then
    (if (run_pmc false true c env.pmcEvents).1 > 0 then
        { (run_pmc false true c env.pmcEvents).2 with pmc_last_update := ts }
      else (run_pmc false true c env.pmcEvents).2,
      [Effect.pmcRound])
  else (c, [])

/-- The effect of the CLOCK_REALTIME reading made when the slave clock
cannot leap by itself. -/
def rt_read_effects (c : Clock) : List Effect :=
  if c.clkid ≠ ClockId.realtime then [Effect.readRealtime true] else []

/-- The time stamp handed to the leap helpers: when a realtime slave is
about to be stepped, the target time (uint64 arithmetic) instead of the
raw sample time. -/
def uso_ts (c : Clock) (offset : Int) (ts1 : Nat) : Nat :=
  if c.clkid = ClockId.realtime ∧ c.servo_state = ServoState.unlocked then
    u64ofInt ((ts1 : Int) -
      (offset + c.sync_offset * NS_PER_SEC * c.sync_offset_direction))
  else ts1

/-- Second half of update_sync_offset: leap-second handling.  Returns the
C return value (0 proceed, -1 discard), the updated clock, and the
effects.  The leap_second_status call appears once per projection; the
source binds it once, which is equivalent. -/
def uso_leap_stage (env : SyncEnv) (c : Clock) (offset : Int) (ts : Nat) :
    Int × Clock × List Effect :=
  if c.leap = 0 ∧ c.leap_set = 0 then (0, c, [])
  else
    match (if c.clkid ≠ ClockId.realtime then env.realtime else some ts) with
    | none => (-1, c, [Effect.readRealtime false])
    | some ts1 =>
      if env.is_utc_ambiguous (uso_ts c offset ts1) then
        (-1, c, rt_read_effects c ++ [Effect.logSuspend])
      else
        if c.leap_set ≠
            (env.leap_second_status (uso_ts c offset ts1) c.leap_set c.leap c.sync_offset).1 then
          (0, { c with
              leap := (env.leap_second_status (uso_ts c offset ts1) c.leap_set c.leap c.sync_offset).2.1
              sync_offset := (env.leap_second_status (uso_ts c offset ts1) c.leap_set c.leap c.sync_offset).2.2
              leap_set := (env.leap_second_status (uso_ts c offset ts1) c.leap_set c.leap c.sync_offset).1 },
            rt_read_effects c ++ (if c.clkid = ClockId.realtime ∧ c.kernel_leap then
              [Effect.setLeap
                (env.leap_second_status (uso_ts c offset ts1) c.leap_set c.leap c.sync_offset).1]
              else []))
        else
          (0, { c with
              leap := (env.leap_second_status (uso_ts c offset ts1) c.leap_set c.leap c.sync_offset).2.1
              sync_offset := (env.leap_second_status (uso_ts c offset ts1) c.leap_set c.leap c.sync_offset).2.2 },
            rt_read_effects c)

/-- update_sync_offset: returns the C return value, the updated clock and
the effect trace. -/
def update_sync_offset (env : SyncEnv) (c : Clock) (offset : Int) (ts : Nat) :
    Int × Clock × List Effect :=
  let p := uso_pmc_stage env c ts
  let l := uso_leap_stage env p.1 offset ts
  (l.1, l.2.1, p.2 ++ l.2.2)

/-! ### update_clock: the control-loop body -/

/-- update_clock.  The servo is the external servo_sample call, modelled
as an oracle returning the frequency (in integer ppb; only its identity
and sign matter here) and the new servo state. -/
def update_clock (env : SyncEnv) (servo_sample : Int → Nat → Int × ServoState)
    (c : Clock) (offset : Int) (ts : Nat) (delay : Int) : Clock × List Effect :=
  let r := update_sync_offset env c offset ts
  if r.1 ≠ 0 then (r.2.1, r.2.2)
  else
    let c1 := r.2.1
    let offset1 := if c1.sync_offset_direction ≠ 0 then
        offset + c1.sync_offset * NS_PER_SEC * c1.sync_offset_direction
      else offset
    let s := servo_sample offset1 ts
    let c2 := { c1 with servo_state := s.2 }
    let adj : List Effect :=
      match s.2 with
      | ServoState.unlocked => []
      | ServoState.jump => [Effect.stepClock (-offset1), Effect.setFreq (-s.1)]
      | ServoState.locked => [Effect.setFreq (-s.1)]
    let tail : List Effect :=
      if c2.offset_stats then [Effect.statsUpdated offset1 s.1 delay]
      else [Effect.logSample]
    (c2, r.2.2 ++ [Effect.servoSampled offset1 ts] ++ adj ++ tail)

/-! ### Modelled external leap helpers (for concrete instantiations) -/

def NSEC_PER_DAY : Nat := 86400 * 1000000000

/-- Modelled from the spec: `is_utc_ambiguous` from util.c, which is not
under src/.  True when ts lies in the final second before a UTC midnight
of a leap-bearing day; `leapDay` selects the leap-bearing days. -/
def is_utc_ambiguous (leapDay : Nat → Bool) (ts : Nat) : Bool :=
  leapDay (ts / NSEC_PER_DAY) ∧ ts % NSEC_PER_DAY ≥ NSEC_PER_DAY - 1000000000

/-- Modelled from the spec: `leap_second_status` from util.c, which is not
under src/.  Arms the pending leap in the half day before midnight; once
the leap has elapsed (first half of a day with a latched leap) it clears
the pending value and moves the UTC offset to preserve continuity.
Returns (clock_leap, new leap, new utc_offset). -/
def leap_second_status (ts : Nat) (leap_set leap utc_offset : Int) :
    Int × Int × Int :=
  if leap ≠ 0 ∧ leap_set = 0 ∧ ts % NSEC_PER_DAY ≥ NSEC_PER_DAY / 2 then
    (leap, leap, utc_offset)
  else if leap_set ≠ 0 ∧ ts % NSEC_PER_DAY < NSEC_PER_DAY / 2 then
    (0, 0, utc_offset + leap_set)
  else (leap_set, leap, utc_offset)

/-! ### main: option processing -/

/-- The command-line options of main that touch the modelled state; every
other option is `other`. -/
inductive CmdOpt where
  | copt (k : ClockId)
  | dopt
  | sopt (k : ClockId)
  | Oopt (v : Int)
  | uopt (n : Nat)
  | wopt
  | xopt
  | other
deriving DecidableEq, Repr

/-- The configuration state main builds up while parsing options. -/
structure MainState where
  dst_clock : Clock
  src : ClockId
  pps_fd : Bool
  wait_sync : Bool
  forced_sync_offset : Bool
deriving DecidableEq, Repr

/-- The initializer of dst_clock in main: CLOCK_REALTIME slave, servo
unlocked, kernel_leap enabled, everything else zero/null. -/
def initial_dst_clock : Clock :=
  { clkid := ClockId.realtime
    servo_state := ServoState.unlocked
    source_label := ""
    offset_stats := false
    stats_max_count := 0
    sync_offset := 0
    sync_offset_direction := 0
    leap := 0
    leap_set := 0
    kernel_leap := true
    pmc := false
    pmc_ds_idx := 0
    pmc_ds_requested := false
    pmc_last_update := 0 }

def initial_main_state : MainState :=
  { dst_clock := initial_dst_clock
    src := ClockId.invalid
    pps_fd := false
    wait_sync := false
    forced_sync_offset := false }

/-- One iteration of the getopt switch in main, restricted to the
modelled state. -/
def process_opt (st : MainState) : CmdOpt → MainState
  | CmdOpt.copt k => { st with dst_clock := { st.dst_clock with clkid := k } }
  | CmdOpt.dopt => { st with pps_fd := true }
  | CmdOpt.sopt k => { st with src := k }
  | CmdOpt.Oopt v =>
    { st with
        dst_clock := { st.dst_clock with sync_offset := v, sync_offset_direction := -1 }
        forced_sync_offset := true }
  | CmdOpt.uopt n => { st with dst_clock := { st.dst_clock with stats_max_count := n } }
  | CmdOpt.wopt => { st with wait_sync := true }
  | CmdOpt.xopt => { st with dst_clock := { st.dst_clock with kernel_leap := false } }
  | CmdOpt.other => st

/-- The whole getopt loop of main. -/
def process_opts (st : MainState) (opts : List CmdOpt) : MainState :=
  opts.foldl process_opt st

/-- The sync_offset_direction auto-detection in main: only inside the
wait_sync block and only when no offset was forced on the command line. -/
def auto_sync_offset_direction (st : MainState) : MainState :=
  if st.wait_sync ∧ ¬st.forced_sync_offset then
    if st.src ≠ ClockId.realtime ∧ st.dst_clock.clkid = ClockId.realtime then
      { st with dst_clock := { st.dst_clock with sync_offset_direction := 1 } }
    else if st.src = ClockId.realtime ∧ st.dst_clock.clkid ≠ ClockId.realtime then
      { st with dst_clock := { st.dst_clock with sync_offset_direction := -1 } }
    else
      { st with dst_clock := { st.dst_clock with sync_offset_direction := 0 } }
  else st

/-! ### Concrete instances used by witnesses and counterexamples -/

/-- A valid PORT_DATA_SET management response reporting state MASTER. -/
def portDsMaster : Msg :=
  { is_mgmt := true
    mgt_id := PORT_DATA_SET
    portState := PS_MASTER
    currentUtcOffset := 37
    flags := 0 }

/-- An environment with no pending management traffic, a realtime clock
reading of 0, no leap-bearing day scheduled, and the modelled util.c leap
helpers. -/
def envQuiet : SyncEnv :=
  { pmcEvents := []
    realtime := some 0
    is_utc_ambiguous := is_utc_ambiguous (fun _ => false)
    leap_second_status := leap_second_status }

/-- An environment whose realtime clock reads 50000 s (past half day 0),
on a leap-bearing day, with the modelled util.c leap helpers. -/
def envLeapDay : SyncEnv :=
  { pmcEvents := []
    realtime := some 50000000000000
    is_utc_ambiguous := is_utc_ambiguous (fun _ => true)
    leap_second_status := leap_second_status }

/-- A slave clock that is a PHC (not the system realtime clock), with
kernel leap handling disabled and a pending leap insertion. -/
def clockPhcLeap : Clock :=
  { initial_dst_clock with
      clkid := ClockId.phc 0
      leap := 1
      servo_state := ServoState.locked
      kernel_leap := false }

/-- A realtime slave clock with a pending leap insertion and kernel leap
handling enabled. -/
def clockRtLeap : Clock :=
  { initial_dst_clock with leap := 1, servo_state := ServoState.locked }

/-- A clock with a management client whose last successful update was at
timestamp 5. -/
def clockPmc5 : Clock :=
  { initial_dst_clock with pmc := true, pmc_last_update := 5 }

/-! ### Helper lemmas -/

theorem u64ofInt_eq_toNat (x : Int) (h0 : 0 ≤ x) (h1 : x < 18446744073709551616) :
    u64ofInt x = x.toNat := by
  unfold u64ofInt; omega

theorem i64ofU64_u64ofInt (x : Int) (hlo : -9223372036854775808 ≤ x)
    (hhi : x < 9223372036854775808) : i64ofU64 (u64ofInt x) = x := by
  unfold i64ofU64 u64ofInt; split <;> omega

/-- Invariant of the read_phc loop: either no trial improves on the
incoming best interval and the state passes through, or the result comes
from a strictly improving trial of minimal interval. -/
theorem read_phc_go_spec (trials : List Trial) :
    ∀ best off ts,
      ((∀ t ∈ trials, ¬ best > trialInterval t) ∧
        read_phc_go trials best off ts = (off, ts, best)) ∨
      (∃ t ∈ trials,
        read_phc_go trials best off ts = (trialOffset t, trialTs t, trialInterval t) ∧
        trialInterval t < best ∧ ∀ u ∈ trials, trialInterval t ≤ trialInterval u) := by
  induction trials with
  | nil => intro best off ts; left; exact ⟨by simp, rfl⟩
  | cons hd rest ih =>
    obtain ⟨a, s, b⟩ := hd
    intro best off ts
    have hint : (b.tv_sec - a.tv_sec) * NS_PER_SEC + b.tv_nsec - a.tv_nsec =
        trialInterval (a, s, b) := by
      simp only [trialInterval, tsNs]; ring
    have hoff : (a.tv_sec - s.tv_sec) * NS_PER_SEC + a.tv_nsec - s.tv_nsec +
        ((b.tv_sec - a.tv_sec) * NS_PER_SEC + b.tv_nsec - a.tv_nsec).tdiv 2 =
        trialOffset (a, s, b) := by
      simp only [trialOffset, tsNs, hint]; ring_nf
    have hts : b.tv_sec * NS_PER_SEC + b.tv_nsec = trialTs (a, s, b) := by
      simp only [trialTs, tsNs]
    rw [read_phc_go]
    by_cases hbi : best > (b.tv_sec - a.tv_sec) * NS_PER_SEC + b.tv_nsec - a.tv_nsec
    · rw [if_pos hbi]
      rcases ih ((b.tv_sec - a.tv_sec) * NS_PER_SEC + b.tv_nsec - a.tv_nsec)
          ((a.tv_sec - s.tv_sec) * NS_PER_SEC + a.tv_nsec - s.tv_nsec +
            ((b.tv_sec - a.tv_sec) * NS_PER_SEC + b.tv_nsec - a.tv_nsec).tdiv 2)
          (b.tv_sec * NS_PER_SEC + b.tv_nsec) with ⟨hall, heq⟩ | ⟨t, ht, heq, hlt, hmin⟩
      · right
        refine ⟨(a, s, b), by simp, ?_, by rw [← hint]; exact hbi, ?_⟩
        · rw [heq, hoff, hts, hint]
        · intro u hu
          rcases List.mem_cons.mp hu with h | h
          · subst h; exact le_refl _
          · have := hall u h
            rw [← hint]; omega
      · right
        refine ⟨t, List.mem_cons_of_mem _ ht, heq, ?_, ?_⟩
        · rw [hint] at hbi hlt; omega
        · intro u hu
          rcases List.mem_cons.mp hu with h | h
          · subst h; rw [hint] at hlt; omega
          · exact hmin u h
    · rw [if_neg hbi]
      rcases ih best off ts with ⟨hall, heq⟩ | ⟨t, ht, heq, hlt, hmin⟩
      · left
        refine ⟨?_, heq⟩
        intro u hu
        rcases List.mem_cons.mp hu with h | h
        · subst h; rw [← hint]; exact hbi
        · exact hall u h
      · right
        refine ⟨t, List.mem_cons_of_mem _ ht, heq, hlt, ?_⟩
        intro u hu
        rcases List.mem_cons.mp hu with h | h
        · subst h; rw [hint] at hbi; omega
        · exact hmin u h

/-! ### Claim theorems -/

/-- Claim C2 (confirmed): with at least one trial, every trial read
successfully and intervals below INT64_MAX, read_phc returns the offset
t1 - tm + (t2 - t1)/2, the timestamp t2 and the delay t2 - t1 of a trial
whose interval t2 - t1 is minimal among all trials. -/
theorem read_phc_best_trial (trials : List Trial) (hne : trials ≠ [])
    (hbound : ∀ t ∈ trials, trialInterval t < 9223372036854775807) :
    ∃ t ∈ trials,
      read_phc trials = (trialOffset t, trialTs t, trialInterval t) ∧
      ∀ u ∈ trials, trialInterval t ≤ trialInterval u := by
  rcases read_phc_go_spec trials 9223372036854775807 0 0 with
    ⟨hall, _⟩ | ⟨t, ht, heq, _, hmin⟩
  · cases trials with
    | nil => exact absurd rfl hne
    | cons hd rest =>
      have h1 := hall hd (by simp)
      have h2 := hbound hd (by simp)
      omega
  · exact ⟨t, ht, heq, hmin⟩

/-- Witness for C2: two concrete trials; the second has the smaller
interval and supplies offset, timestamp and delay. -/
theorem read_phc_best_trial_w :
    (([((⟨0, 0⟩ : Timespec), (⟨0, 5⟩ : Timespec), (⟨0, 100⟩ : Timespec)),
        (⟨0, 0⟩, ⟨0, 3⟩, ⟨0, 50⟩)] : List Trial) ≠ [] ∧
      ∀ t ∈ ([((⟨0, 0⟩ : Timespec), ⟨0, 5⟩, ⟨0, 100⟩),
        (⟨0, 0⟩, ⟨0, 3⟩, ⟨0, 50⟩)] : List Trial),
        trialInterval t < 9223372036854775807) ∧
    ∃ t ∈ ([((⟨0, 0⟩ : Timespec), ⟨0, 5⟩, ⟨0, 100⟩),
        (⟨0, 0⟩, ⟨0, 3⟩, ⟨0, 50⟩)] : List Trial),
      read_phc [((⟨0, 0⟩ : Timespec), ⟨0, 5⟩, ⟨0, 100⟩), (⟨0, 0⟩, ⟨0, 3⟩, ⟨0, 50⟩)] =
        (trialOffset t, trialTs t, trialInterval t) ∧
      ∀ u ∈ ([((⟨0, 0⟩ : Timespec), ⟨0, 5⟩, ⟨0, 100⟩),
        (⟨0, 0⟩, ⟨0, 3⟩, ⟨0, 50⟩)] : List Trial),
        trialInterval t ≤ trialInterval u :=
  ⟨⟨by decide, by decide⟩, read_phc_best_trial _ (by decide) (by decide)⟩

/-- Claim C3 (confirmed): for every raw PPS assertion timestamp, the
read_pps offset lies in (-5*10^8, 5*10^8] and ts - offset is a whole
number of seconds. -/
theorem read_pps_offset_spec (raw : Nat) :
    -500000000 < read_pps raw ∧ read_pps raw ≤ 500000000 ∧
      (1000000000 : Int) ∣ ((raw : Int) - read_pps raw) := by
  simp only [read_pps, NS_PER_SEC]
  have h1 : raw % 1000000000 < 1000000000 := Nat.mod_lt _ (by norm_num)
  have h2 : raw % 1000000000 + 1000000000 * (raw / 1000000000) = raw :=
    Nat.mod_add_div _ _
  split <;> refine ⟨by omega, by omega, ?_⟩
  · exact ⟨(raw : Int) / 1000000000 + 1, by push_cast; omega⟩
  · exact ⟨(raw : Int) / 1000000000, by push_cast; omega⟩

/-- Claim C4 (confirmed): in the hybrid PPS+PHC step, with
d = phc_ts - phc_offset the cross-sample converted to PHC time (assumed
to fit in a uint64, and the resulting offset in an int64), the sample is
skipped exactly when d mod 10^9 exceeds 10^7, and otherwise the offset
fed onward is pps_ts - (d / 10^9) * 10^9. -/
theorem pps_phc_adjust_spec (pps_ts phc_ts : Nat) (phc_offset : Int)
    (h0 : 0 ≤ (phc_ts : Int) - phc_offset)
    (h1 : (phc_ts : Int) - phc_offset < 18446744073709551616)
    (h2 : (pps_ts : Int) -
        ((((phc_ts : Int) - phc_offset).toNat / 1000000000 * 1000000000 : Nat) : Int) <
        9223372036854775808)
    (h3 : -9223372036854775808 ≤ (pps_ts : Int) -
        ((((phc_ts : Int) - phc_offset).toNat / 1000000000 * 1000000000 : Nat) : Int)) :
    (pps_phc_adjust pps_ts phc_offset phc_ts = none ↔
      ((phc_ts : Int) - phc_offset).toNat % 1000000000 > 10000000) ∧
    (((phc_ts : Int) - phc_offset).toNat % 1000000000 ≤ 10000000 →
      pps_phc_adjust pps_ts phc_offset phc_ts =
        some ((pps_ts : Int) -
          ((((phc_ts : Int) - phc_offset).toNat / 1000000000 * 1000000000 : Nat) : Int))) := by
  have hd : u64ofInt ((phc_ts : Int) - phc_offset) = ((phc_ts : Int) - phc_offset).toNat :=
    u64ofInt_eq_toNat _ h0 h1
  by_cases hgt : ((phc_ts : Int) - phc_offset).toNat % 1000000000 > 10000000
  · constructor
    · simp [pps_phc_adjust, hd, hgt]
    · intro hle; omega
  · constructor
    · simp [pps_phc_adjust, hd, hgt]
    · intro _
      simp only [pps_phc_adjust, hd, if_neg (by omega : ¬ ((phc_ts : Int) - phc_offset).toNat % 1000000000 > 10000000)]
      rw [i64ofU64_u64ofInt _ h3 h2]

/-- Witness for C4: at residue 10^7 - 1 the sample is accepted with the
floored offset, and at residue 10^7 + 1 it is skipped. -/
theorem pps_phc_adjust_spec_w :
    ((0 : Int) ≤ (2009999999 : Nat) - (0 : Int) ∧
      pps_phc_adjust 3000000000 0 2009999999 = some 1000000000) ∧
    pps_phc_adjust 3000000000 0 2010000001 = none :=
  ⟨⟨by decide,
    by
      have h := (pps_phc_adjust_spec 3000000000 2009999999 0 (by decide) (by decide)
        (by decide) (by decide)).2 (by decide)
      simpa using h⟩,
    by
      have h := (pps_phc_adjust_spec 3000000000 2010000001 0 (by decide) (by decide)
        (by decide) (by decide)).1.mpr (by decide)
      simpa using h⟩

/-- Claim C6 counterexample: in the hybrid PPS+PHC loop a single failed
PHC clock read is fatal (do_pps_loop returns -1), not a skipped
iteration. -/
theorem pps_loop_hybrid_read_fatal :
    pps_loop_iter true (some 0) none = IterOut.fatal ∧
      IterOut.fatal ≠ IterOut.skipped := by
  exact ⟨rfl, by decide⟩

/-- Claim C6 (amended): a failed PPS fetch is non-fatal in both PPS
loops (the iteration is skipped and the servo is not fed), and a failed
clock read is non-fatal in the PHC loop; but in the hybrid PPS+PHC loop
a failed PHC cross-read terminates the loop with an error. -/
theorem loop_iter_transient (src_valid : Bool) (phc : Option (Int × Nat × Int))
    (raw : Nat) :
    pps_loop_iter src_valid none phc = IterOut.skipped ∧
    phc_loop_iter none = IterOut.skipped ∧
    pps_loop_iter true (some raw) none = IterOut.fatal ∧
    pps_loop_iter false (some raw) none = IterOut.fed (read_pps raw) raw (-1) :=
  ⟨rfl, rfl, rfl, rfl⟩

/-- run_pmc writes only the management fields of the clock: every other
field is preserved. -/
theorem run_pmc_preserves (ws gu : Bool) (c : Clock) (events : List PollEvent) :
    (run_pmc ws gu c events).2.clkid = c.clkid ∧
    (run_pmc ws gu c events).2.kernel_leap = c.kernel_leap ∧
    (run_pmc ws gu c events).2.leap_set = c.leap_set ∧
    (run_pmc ws gu c events).2.pmc = c.pmc ∧
    (run_pmc ws gu c events).2.pmc_last_update = c.pmc_last_update ∧
    (run_pmc ws gu c events).2.servo_state = c.servo_state ∧
    (run_pmc ws gu c events).2.offset_stats = c.offset_stats ∧
    (run_pmc ws gu c events).2.sync_offset_direction = c.sync_offset_direction := by
  simp [run_pmc]

set_option maxHeartbeats 1000000 in
/-- When run_pmc_go reports an update complete (return 1), the dataset
cursor has been reset to 0 for the next round. -/
theorem run_pmc_go_complete (ws gu : Bool) (idx : Nat) (requested : Bool)
    (so leap : Int) (events : List PollEvent) :
    (run_pmc_go ws gu idx requested so leap events).1 = 1 →
    (run_pmc_go ws gu idx requested so leap events).2.1 = 0 := by
  induction idx, requested, so, leap, events using run_pmc_go.induct ws gu <;>
    rw [run_pmc_go.eq_def] <;> (try split_ifs) <;> simp_all

/-- Claim C9 (confirmed): a PORT_DATA_SET response advances the dataset
cursor exactly when the reported port state is MASTER or SLAVE (any other
state leaves the cursor pinned at the port data set), and whenever a
round returns update complete (1) the cursor has been reset to the first
dataset. -/
theorem run_pmc_port_ds (m : Msg) (c0 : Clock) (h0 : c0.pmc_ds_idx = 0)
    (hm : m.is_mgmt = true) (hid : m.mgt_id = PORT_DATA_SET)
    (ws gu : Bool) (c1 : Clock) (events : List PollEvent) :
    ((run_pmc true true c0 [PollEvent.ready false true (some m)]).2.pmc_ds_idx =
      if m.portState = PS_MASTER ∨ m.portState = PS_SLAVE then 1 else 0) ∧
    ((run_pmc ws gu c1 events).1 = 1 → (run_pmc ws gu c1 events).2.pmc_ds_idx = 0) := by
  constructor
  · by_cases hps : m.portState = PS_MASTER ∨ m.portState = PS_SLAVE <;>
      simp [run_pmc, run_pmc_go, h0, hm, hid, ds_ids, hps]
  · intro h1
    have h2 := run_pmc_go_complete ws gu c1.pmc_ds_idx c1.pmc_ds_requested
      c1.sync_offset c1.leap events (by simpa [run_pmc] using h1)
    simpa [run_pmc] using h2

/-- Witness for C9: a MASTER response at cursor 0 advances the cursor,
and a round that completes with both datasets skipped resets it to 0. -/
theorem run_pmc_port_ds_w :
    (initial_dst_clock.pmc_ds_idx = 0 ∧ portDsMaster.is_mgmt = true ∧
      portDsMaster.mgt_id = PORT_DATA_SET) ∧
    ((run_pmc true true initial_dst_clock
        [PollEvent.ready false true (some portDsMaster)]).2.pmc_ds_idx =
      if portDsMaster.portState = PS_MASTER ∨ portDsMaster.portState = PS_SLAVE
      then 1 else 0) ∧
    ((run_pmc false false initial_dst_clock []).1 = 1 →
      (run_pmc false false initial_dst_clock []).2.pmc_ds_idx = 0) :=
  ⟨⟨rfl, rfl, rfl⟩,
    run_pmc_port_ds portDsMaster initial_dst_clock rfl rfl rfl false false
      initial_dst_clock []⟩

/-- The management-refresh stage emits its round effect exactly under the
C guard, advances pmc_last_update exactly on a positive round, and leaves
the non-management clock fields alone. -/
theorem uso_pmc_stage_spec (env : SyncEnv) (c : Clock) (ts : Nat) :
    ((uso_pmc_stage env c ts).2 =
      if c.pmc ∧ ¬(ts > c.pmc_last_update ∧ ts - c.pmc_last_update < PMC_UPDATE_INTERVAL)
      then [Effect.pmcRound] else []) ∧
    (uso_pmc_stage env c ts).1.clkid = c.clkid ∧
    (uso_pmc_stage env c ts).1.kernel_leap = c.kernel_leap ∧
    (uso_pmc_stage env c ts).1.offset_stats = c.offset_stats ∧
    ((uso_pmc_stage env c ts).1.pmc_last_update =
      if c.pmc ∧ ¬(ts > c.pmc_last_update ∧ ts - c.pmc_last_update < PMC_UPDATE_INTERVAL)
        ∧ (run_pmc false true c env.pmcEvents).1 > 0
      then ts else c.pmc_last_update) := by
  obtain ⟨hc, hk, _, _, hlu, _, ho, _⟩ := run_pmc_preserves false true c env.pmcEvents
  unfold uso_pmc_stage
  by_cases h1 : c.pmc ∧ ¬(ts > c.pmc_last_update ∧ ts - c.pmc_last_update < PMC_UPDATE_INTERVAL)
  · rw [if_pos h1, if_pos h1]
    by_cases h2 : (run_pmc false true c env.pmcEvents).1 > 0
    · rw [if_pos h2, if_pos (show c.pmc ∧ ¬(ts > c.pmc_last_update ∧
          ts - c.pmc_last_update < PMC_UPDATE_INTERVAL) ∧
          (run_pmc false true c env.pmcEvents).1 > 0 from ⟨h1.1, h1.2, h2⟩)]
      exact ⟨rfl, hc, hk, ho, rfl⟩
    · rw [if_neg h2, if_neg (fun hh => h2 hh.2.2)]
      exact ⟨rfl, hc, hk, ho, hlu⟩
  · rw [if_neg h1, if_neg h1, if_neg (fun hh => h1 ⟨hh.1, hh.2.1⟩)]
    exact ⟨rfl, rfl, rfl, rfl, rfl⟩

/-- The leap stage leaves the stats, management and identity fields of
the clock alone, emits only read/suspend/set-leap effects, and emits a
kernel set-leap call only for a realtime slave with kernel leap handling
enabled. -/
theorem uso_leap_stage_spec (env : SyncEnv) (c : Clock) (offset : Int) (ts : Nat) :
    ((uso_leap_stage env c offset ts).2.1.pmc_last_update = c.pmc_last_update ∧
      (uso_leap_stage env c offset ts).2.1.offset_stats = c.offset_stats ∧
      (uso_leap_stage env c offset ts).2.1.clkid = c.clkid ∧
      (uso_leap_stage env c offset ts).2.1.kernel_leap = c.kernel_leap) ∧
    (∀ e ∈ (uso_leap_stage env c offset ts).2.2,
      e = Effect.readRealtime true ∨ e = Effect.readRealtime false ∨
      e = Effect.logSuspend ∨ ∃ v, e = Effect.setLeap v) ∧
    (∀ v, Effect.setLeap v ∈ (uso_leap_stage env c offset ts).2.2 →
      c.clkid = ClockId.realtime ∧ c.kernel_leap = true) := by
  unfold uso_leap_stage
  split
  · simp
  · split
    · simp
    · split
      · refine ⟨by simp, ?_, ?_⟩
        · intro e he
          simp only [rt_read_effects] at he
          split at he <;> simp_all <;> tauto
        · intro v hv
          simp only [rt_read_effects] at hv
          split at hv <;> simp_all
      · split
        · refine ⟨by simp, ?_, ?_⟩
          · intro e he
            simp only [rt_read_effects] at he
            split at he <;> split at he <;> simp_all
          · intro v hv
            simp only [rt_read_effects] at hv
            split at hv <;> split at hv <;> simp_all
        · refine ⟨by simp, ?_, ?_⟩
          · intro e he
            simp only [rt_read_effects] at he
            split at he <;> simp_all
          · intro v hv
            simp only [rt_read_effects] at hv
            split at hv <;> simp_all

/-- Every effect of update_sync_offset is a management round, a realtime
read, a suspend log or a kernel leap call. -/
theorem mem_update_sync_offset_effects (env : SyncEnv) (c : Clock) (offset : Int)
    (ts : Nat) :
    ∀ e ∈ (update_sync_offset env c offset ts).2.2,
      e = Effect.pmcRound ∨ e = Effect.readRealtime true ∨
      e = Effect.readRealtime false ∨ e = Effect.logSuspend ∨
      ∃ v, e = Effect.setLeap v := by
  intro e he
  have hp := (uso_pmc_stage_spec env c ts).1
  have hl := (uso_leap_stage_spec env (uso_pmc_stage env c ts).1 offset ts).2.1
  simp only [update_sync_offset, List.mem_append] at he
  rcases he with h | h
  · rw [hp] at h
    split at h <;> simp_all
  · rcases hl e h with h1 | h1 | h1 | ⟨v, h1⟩ <;> subst h1 <;> tauto

/-- update_sync_offset performs no servo, step, frequency or stats
effect. -/
theorem update_sync_offset_no_consume (env : SyncEnv) (c : Clock) (offset : Int)
    (ts : Nat) :
    (update_sync_offset env c offset ts).2.2.filter Effect.isConsume = [] := by
  rw [List.filter_eq_nil_iff]
  intro e he
  rcases mem_update_sync_offset_effects env c offset ts e he with
    h | h | h | h | ⟨v, h⟩ <;> subst h <;> simp [Effect.isConsume]

/-- update_sync_offset performs no step or frequency adjustment. -/
theorem update_sync_offset_no_adjust (env : SyncEnv) (c : Clock) (offset : Int)
    (ts : Nat) :
    (update_sync_offset env c offset ts).2.2.filter Effect.isAdjust = [] := by
  rw [List.filter_eq_nil_iff]
  intro e he
  rcases mem_update_sync_offset_effects env c offset ts e he with
    h | h | h | h | ⟨v, h⟩ <;> subst h <;> simp [Effect.isAdjust]

/-- On the leap-handling path (a leap pending or latched, realtime read
successful, not the ambiguous second), the leap stage always latches
leap_set to the status computed by leap_second_status, whatever the
slave clock and the kernel_leap flag: in the branch where the status
differs leap_set is assigned, and in the other branch it is already
equal to it. -/
theorem uso_leap_stage_latch (env : SyncEnv) (c : Clock) (offset : Int) (ts : Nat)
    (h0 : (uso_leap_stage env c offset ts).1 = 0)
    (h1 : ¬(c.leap = 0 ∧ c.leap_set = 0)) :
    ∃ ts1, (if c.clkid ≠ ClockId.realtime then env.realtime else some ts) = some ts1 ∧
      (uso_leap_stage env c offset ts).2.1.leap_set =
        (env.leap_second_status (uso_ts c offset ts1) c.leap_set c.leap
          c.sync_offset).1 := by
  unfold uso_leap_stage at h0 ⊢
  rw [if_neg h1] at h0 ⊢
  rcases hscr : (if c.clkid ≠ ClockId.realtime then env.realtime else some ts) with _ | ts1
  · simp only [hscr] at h0
    exact absurd h0 (by decide)
  · simp only [hscr] at h0 ⊢
    refine ⟨ts1, rfl, ?_⟩
    split at h0
    case isTrue => simp at h0
    case isFalse hamb =>
      rw [if_neg hamb]
      by_cases hne : c.leap_set ≠
          (env.leap_second_status (uso_ts c offset ts1) c.leap_set c.leap c.sync_offset).1
      · rw [if_pos hne]
      · rw [if_neg hne]
        simpa using not_not.mp hne

/-- Claim C1 counterexample: with a PHC slave (not the system realtime
clock) and kernel leap handling disabled, a pending leap still changes
the latched leap_set field. -/
theorem update_sync_offset_c1_cex :
    (update_sync_offset envLeapDay clockPhcLeap 0 0).2.1.leap_set = 1 ∧
    clockPhcLeap.leap_set = 0 ∧ clockPhcLeap.clkid ≠ ClockId.realtime ∧
    clockPhcLeap.kernel_leap = false := by
  decide

/-- Claim C1 (amended): the kernel leap call (clockadj_set_leap) is
issued only when the slave clock is the system realtime clock and
kernel_leap is enabled; whereas on the leap-handling path the leap_set
field is latched to the status computed by leap_second_status, for any
slave clock and regardless of kernel_leap. -/
theorem update_sync_offset_setleap_guard (env : SyncEnv) (c : Clock) (offset : Int)
    (ts : Nat) :
    (∀ v, Effect.setLeap v ∈ (update_sync_offset env c offset ts).2.2 →
      c.clkid = ClockId.realtime ∧ c.kernel_leap = true) ∧
    ((update_sync_offset env c offset ts).1 = 0 →
      ¬((uso_pmc_stage env c ts).1.leap = 0 ∧ (uso_pmc_stage env c ts).1.leap_set = 0) →
      ∃ ts1,
        (if (uso_pmc_stage env c ts).1.clkid ≠ ClockId.realtime then env.realtime
          else some ts) = some ts1 ∧
        (update_sync_offset env c offset ts).2.1.leap_set =
          (env.leap_second_status (uso_ts (uso_pmc_stage env c ts).1 offset ts1)
            (uso_pmc_stage env c ts).1.leap_set (uso_pmc_stage env c ts).1.leap
            (uso_pmc_stage env c ts).1.sync_offset).1) := by
  constructor
  · intro v h
    have hp := uso_pmc_stage_spec env c ts
    have hl := (uso_leap_stage_spec env (uso_pmc_stage env c ts).1 offset ts).2.2
    simp only [update_sync_offset, List.mem_append] at h
    rcases h with h1 | h1
    · rw [hp.1] at h1
      split at h1 <;> simp_all
    · have h2 := hl v h1
      rw [hp.2.1, hp.2.2.1] at h2
      exact h2
  · intro h0 h1
    have hl := uso_leap_stage_latch env (uso_pmc_stage env c ts).1 offset ts
      (by simpa only [update_sync_offset] using h0) h1
    simpa only [update_sync_offset] using hl

/-- Witness for C1: a realtime slave with kernel leap handling enabled
does issue the kernel leap call when the pending leap arms, while a PHC
slave with kernel leap disabled still latches leap_set to the computed
status. -/
theorem update_sync_offset_setleap_guard_w :
    ((Effect.setLeap 1 ∈
        (update_sync_offset envLeapDay clockRtLeap 0 50000000000000).2.2) ∧
      (clockRtLeap.clkid = ClockId.realtime ∧ clockRtLeap.kernel_leap = true)) ∧
    ((update_sync_offset envLeapDay clockPhcLeap 0 0).1 = 0 ∧
      ¬((uso_pmc_stage envLeapDay clockPhcLeap 0).1.leap = 0 ∧
        (uso_pmc_stage envLeapDay clockPhcLeap 0).1.leap_set = 0) ∧
      ∃ ts1,
        (if (uso_pmc_stage envLeapDay clockPhcLeap 0).1.clkid ≠ ClockId.realtime then
          envLeapDay.realtime else some 0) = some ts1 ∧
        (update_sync_offset envLeapDay clockPhcLeap 0 0).2.1.leap_set =
          (envLeapDay.leap_second_status
            (uso_ts (uso_pmc_stage envLeapDay clockPhcLeap 0).1 0 ts1)
            (uso_pmc_stage envLeapDay clockPhcLeap 0).1.leap_set
            (uso_pmc_stage envLeapDay clockPhcLeap 0).1.leap
            (uso_pmc_stage envLeapDay clockPhcLeap 0).1.sync_offset).1) :=
  ⟨⟨by decide,
      (update_sync_offset_setleap_guard envLeapDay clockRtLeap 0 50000000000000).1 1
        (by decide)⟩,
    ⟨by decide, by decide,
      (update_sync_offset_setleap_guard envLeapDay clockPhcLeap 0 0).2
        (by decide) (by decide)⟩⟩

/-- Claim C8 counterexample: at a sample timestamp equal to
pmc_last_update the elapsed time is 0, below the 60 s refresh interval,
yet a management round is run. -/
theorem update_sync_offset_pmc_refresh_cex :
    Effect.pmcRound ∈ (update_sync_offset envQuiet clockPmc5 0 5).2.2 ∧
    clockPmc5.pmc_last_update = 5 ∧
    (5 : Nat) - clockPmc5.pmc_last_update < PMC_UPDATE_INTERVAL := by
  decide

/-- Claim C8 (amended): with a management client, a non-blocking round is
run exactly when NOT (ts > pmc_last_update and the difference is below
60 s) — in particular also when ts is not beyond pmc_last_update — and
pmc_last_update is advanced to ts exactly when the round runs and
returns positive. -/
theorem update_sync_offset_pmc_refresh (env : SyncEnv) (c : Clock) (offset : Int)
    (ts : Nat) :
    (Effect.pmcRound ∈ (update_sync_offset env c offset ts).2.2 ↔
      (c.pmc ∧ ¬(ts > c.pmc_last_update ∧ ts - c.pmc_last_update < PMC_UPDATE_INTERVAL))) ∧
    ((update_sync_offset env c offset ts).2.1.pmc_last_update =
      if c.pmc ∧ ¬(ts > c.pmc_last_update ∧ ts - c.pmc_last_update < PMC_UPDATE_INTERVAL)
        ∧ (run_pmc false true c env.pmcEvents).1 > 0
      then ts else c.pmc_last_update) := by
  have hp := uso_pmc_stage_spec env c ts
  have hl := uso_leap_stage_spec env (uso_pmc_stage env c ts).1 offset ts
  constructor
  · simp only [update_sync_offset, List.mem_append]
    constructor
    · rintro (h | h)
      · rw [hp.1] at h
        split at h <;> simp_all
      · exfalso
        rcases hl.2.1 _ h with h1 | h1 | h1 | ⟨v, h1⟩ <;> simp_all
    · intro hcond
      left
      rw [hp.1, if_pos hcond]
      simp
  · simp only [update_sync_offset]
    rw [hl.1.1]
    exact hp.2.2.2.2

/-- Claim C5 (confirmed): when the leap coordinator lets the sample
through, the step and frequency calls of the iteration are exactly: none
in state Unlocked; a step by the negated corrected offset followed by a
frequency set to the negated servo output in state Jump; only the
frequency set in state Locked.  When the coordinator discards the sample
no adjustment happens at all. -/
theorem update_clock_dispatch (env : SyncEnv)
    (servo_sample : Int → Nat → Int × ServoState) (c : Clock) (offset : Int)
    (ts : Nat) (delay : Int) :
    (update_clock env servo_sample c offset ts delay).2.filter Effect.isAdjust =
      if (update_sync_offset env c offset ts).1 = 0 then
        (let c1 := (update_sync_offset env c offset ts).2.1
         let o := if c1.sync_offset_direction ≠ 0 then
             offset + c1.sync_offset * NS_PER_SEC * c1.sync_offset_direction
           else offset
         match servo_sample o ts with
         | (_p, ServoState.unlocked) => ([] : List Effect)
         | (p, ServoState.jump) => [Effect.stepClock (-o), Effect.setFreq (-p)]
         | (p, ServoState.locked) => [Effect.setFreq (-p)])
      else [] := by
  have hfil := update_sync_offset_no_adjust env c offset ts
  by_cases h : (update_sync_offset env c offset ts).1 = 0
  · simp only [update_clock, if_neg (not_not_intro h), if_pos h]
    rcases hs : servo_sample
        (if (update_sync_offset env c offset ts).2.1.sync_offset_direction ≠ 0 then
          offset + (update_sync_offset env c offset ts).2.1.sync_offset * NS_PER_SEC *
            (update_sync_offset env c offset ts).2.1.sync_offset_direction
         else offset) ts with ⟨p, st⟩
    cases st <;>
      simp [List.filter_append, hfil, Effect.isAdjust] <;>
      split <;> simp [Effect.isAdjust]
  · simp only [update_clock, if_pos h, if_neg h]
    exact hfil

/-- Claim C7 (confirmed): an iteration consumes the sample (servo
sampling, clock adjustment, statistics) exactly when the leap coordinator
returns 0; on a nonzero return nothing of the sample is consumed, and the
statistics effect additionally requires the stats pointers to be
present. -/
theorem update_clock_atomic (env : SyncEnv)
    (servo_sample : Int → Nat → Int × ServoState) (c : Clock) (offset : Int)
    (ts : Nat) (delay : Int) :
    ((update_clock env servo_sample c offset ts delay).2.filter Effect.isConsume = [] ↔
      (update_sync_offset env c offset ts).1 ≠ 0) ∧
    ((∃ o t, Effect.servoSampled o t ∈
        (update_clock env servo_sample c offset ts delay).2) ↔
      (update_sync_offset env c offset ts).1 = 0) ∧
    ((∃ a b d, Effect.statsUpdated a b d ∈
        (update_clock env servo_sample c offset ts delay).2) ↔
      ((update_sync_offset env c offset ts).1 = 0 ∧ c.offset_stats = true)) := by
  have hmem := mem_update_sync_offset_effects env c offset ts
  have hfil := update_sync_offset_no_consume env c offset ts
  have hp := uso_pmc_stage_spec env c ts
  have hl := uso_leap_stage_spec env (uso_pmc_stage env c ts).1 offset ts
  have hstats : (update_sync_offset env c offset ts).2.1.offset_stats = c.offset_stats := by
    simp only [update_sync_offset]
    rw [hl.1.2.1]
    exact hp.2.2.2.1
  by_cases h : (update_sync_offset env c offset ts).1 = 0
  · simp only [update_clock, if_neg (not_not_intro h)]
    rcases hs : servo_sample
        (if (update_sync_offset env c offset ts).2.1.sync_offset_direction ≠ 0 then
          offset + (update_sync_offset env c offset ts).2.1.sync_offset * NS_PER_SEC *
            (update_sync_offset env c offset ts).2.1.sync_offset_direction
         else offset) ts with ⟨p, st⟩
    refine ⟨?_, ?_, ?_⟩
    · simp [List.filter_append, hfil, Effect.isConsume, h]
    · simp only [h, iff_true]
      refine ⟨(if (update_sync_offset env c offset ts).2.1.sync_offset_direction ≠ 0 then
          offset + (update_sync_offset env c offset ts).2.1.sync_offset * NS_PER_SEC *
            (update_sync_offset env c offset ts).2.1.sync_offset_direction
        else offset), ts, ?_⟩
      simp
    · constructor
      · rintro ⟨a, b, d, hd⟩
        refine ⟨h, ?_⟩
        simp only [List.mem_append] at hd
        rcases hd with ((hd | hd) | hd) | hd
        · rcases hmem _ hd with h1 | h1 | h1 | h1 | ⟨v, h1⟩ <;> simp_all
        · simp_all
        · cases st <;> simp_all
        · rw [← hstats]
          revert hd
          split <;> simp_all
      · rintro ⟨-, hos⟩
        refine ⟨(if (update_sync_offset env c offset ts).2.1.sync_offset_direction ≠ 0 then
            offset + (update_sync_offset env c offset ts).2.1.sync_offset * NS_PER_SEC *
              (update_sync_offset env c offset ts).2.1.sync_offset_direction
          else offset), p, delay, ?_⟩
        simp [hstats, hos]
  · simp only [update_clock, if_pos h]
    refine ⟨by simp [hfil, h], ?_, ?_⟩
    · simp only [h, iff_false]
      rintro ⟨o, t, hd⟩
      rcases hmem _ hd with h1 | h1 | h1 | h1 | ⟨v, h1⟩ <;> simp_all
    · constructor
      · rintro ⟨a, b, d, hd⟩
        rcases hmem _ hd with h1 | h1 | h1 | h1 | ⟨v, h1⟩ <;> simp_all
      · rintro ⟨h0, -⟩
        exact absurd h0 h

/-- Once the forced-offset flags are set, no later option clears them. -/
theorem process_opts_keeps_forced (opts : List CmdOpt) :
    ∀ st : MainState, st.forced_sync_offset = true →
      st.dst_clock.sync_offset_direction = -1 →
      (process_opts st opts).forced_sync_offset = true ∧
      (process_opts st opts).dst_clock.sync_offset_direction = -1 := by
  induction opts with
  | nil => intro st h1 h2; exact ⟨h1, h2⟩
  | cons o rest ih =>
    intro st h1 h2
    cases o <;> exact ih _ (by simp [process_opts, process_opt, h1])
      (by simp [process_opts, process_opt, h2])

/-- Claim C10 (confirmed): whenever the forced UTC offset option -O
appears on the command line, main leaves the parsing loop with
forced_sync_offset set and sync_offset_direction equal to -1, and the
wait-sync auto-detection block does not override it, whatever the master
and slave clocks are. -/
theorem main_forced_offset_direction (opts : List CmdOpt) (v : Int)
    (h : CmdOpt.Oopt v ∈ opts) :
    (auto_sync_offset_direction (process_opts initial_main_state opts)).forced_sync_offset
        = true ∧
    (auto_sync_offset_direction
        (process_opts initial_main_state opts)).dst_clock.sync_offset_direction = -1 := by
  suffices hs : ∀ st : MainState, (process_opts st opts).forced_sync_offset = true ∧
      (process_opts st opts).dst_clock.sync_offset_direction = -1 by
    have h2 := hs initial_main_state
    unfold auto_sync_offset_direction
    rw [if_neg (by simp [h2.1])]
    exact h2
  induction opts with
  | nil => simp at h
  | cons o rest ih =>
    intro st
    rcases List.mem_cons.mp h with h1 | h1
    · subst h1
      exact process_opts_keeps_forced rest _ (by simp [process_opt]) (by simp [process_opt])
    · exact ih h1 _

/-- Witness for C10: -O 37 followed by other options. -/
theorem main_forced_offset_direction_w :
    CmdOpt.Oopt 37 ∈ [CmdOpt.wopt, CmdOpt.Oopt 37, CmdOpt.sopt ClockId.realtime] ∧
    ((auto_sync_offset_direction (process_opts initial_main_state
        [CmdOpt.wopt, CmdOpt.Oopt 37, CmdOpt.sopt ClockId.realtime])).forced_sync_offset
        = true ∧
      (auto_sync_offset_direction (process_opts initial_main_state
        [CmdOpt.wopt, CmdOpt.Oopt 37, CmdOpt.sopt ClockId.realtime])).dst_clock.sync_offset_direction
        = -1) :=
  ⟨by decide,
    main_forced_offset_direction [CmdOpt.wopt, CmdOpt.Oopt 37, CmdOpt.sopt ClockId.realtime]
      37 (by decide)⟩
